import Mathlib

/-!
Verification development for the soso-chatting client-side session
reconciliation layer.

The definitions below are a shallow embedding of the TypeScript source:

* `Message`, `User`, `TypingUser` embed the interfaces from `types/chat`
  (part_008). ISO timestamps are embedded as the integer value that
  `new Date(iso).getTime()` produces (milliseconds since epoch), since
  every use in the program immediately converts them this way.
* `ingest` embeds the `channel.bind('new-message')` state update of
  `usePusher.initializePusher` (part_000, lines 464-504): duplicate
  detection by id or by (text, userId, |Δtimestamp| < 5000 ms), followed
  by append and the `slice(-100)` retention cap.
* `MessageBuffer.addMessage` (part_013, lines 64-89) is embedded as
  `addMessage`: same duplicate rule against the buffer, `slice(-50)` cap,
  boolean result.
* The singleton transport manager (`lib/pusher-singleton.ts`, second
  revision) is embedded as a state machine over `PusherGlobal` with an
  explicit timer list for the delayed-cleanup `setTimeout`s.
* Roster reconciliation (`syncWithServer`, part_002 lines 202-242), the
  `user-joined` handler (part_002 lines 695-721), the typing sweep
  (part_002 lines 1619-1626), the `sendMessage` input validation
  (part_002 lines 1082-1100), the service-worker buffered-message replay
  (part_002 lines 113-128) and the system-message filter of the live
  `new-message` handler (part_002 lines 565-690) are embedded below,
  each next to its theorems.
-/

/-- Structure `Message` from `types/chat` (part_008 lines 70-78). `timestamp` is the
epoch-millisecond value of the ISO string. The optional `isSystemMessage`
flag is not consulted by any embedded operation and is omitted. -/
structure Message where
  id : String
  text : String
  userId : String
  userName : String
  userAvatar : String
  timestamp : Int
  deriving DecidableEq, Repr

/-- Structure `User` from `types/chat` (part_008 lines 60-67). `joinedAt` is kept as
the raw ISO string; `isOnline`/`leftAt` are never consulted by the embedded
operations and are omitted. -/
structure User where
  id : String
  name : String
  avatar : String
  joinedAt : String
  deriving DecidableEq, Repr

/-- The `TypingUser` payload (`{id, name, startedAt}`, part_007 lines 94-98);
`startedAt` as epoch milliseconds. -/
structure TypingUser where
  id : String
  name : String
  startedAt : Int
  deriving DecidableEq, Repr

/-- The duplicate test the `new-message` handler applies per existing
message (part_000 lines 470-475): same id, or same text and userId with
timestamps less than 5000 ms apart. First argument is the existing log
entry, second the incoming candidate. -/
def sameLogical (existing incoming : Message) : Bool :=
  existing.id == incoming.id ||
    (existing.text == incoming.text && existing.userId == incoming.userId &&
      (existing.timestamp - incoming.timestamp).natAbs < 5000)

/-- The `slice(-n)` retention cap (part_000 line 495): keep the most
recent `n` entries. For `l.length ≤ n` this is the identity. -/
def cap (n : Nat) (l : List Message) : List Message :=
  if l.length > n then l.drop (l.length - n) else l

/-- The `setMessages` update of the `channel.bind('new-message')` handler
(part_000 lines 468-503): reject when a duplicate by id or by content
within the 5-second window exists, otherwise append and apply the
100-message retention cap. The boolean records whether the candidate was
accepted. -/
def ingest (prev : List Message) (message : Message) : List Message × Bool :=
  if prev.any (fun existingMsg => existingMsg.id == message.id)
      || prev.any (fun existingMsg =>
          existingMsg.text == message.text && existingMsg.userId == message.userId &&
            (existingMsg.timestamp - message.timestamp).natAbs < 5000) then
    (prev, false)
  else (cap 100 (prev ++ [message]), true)

/-- One step of repeatedly feeding `new-message` events through the
handler: first component is the message log, second the list of messages
accepted so far (in acceptance order). -/
def ingestStep (st : List Message × List Message) (m : Message) :
    List Message × List Message :=
  ((ingest st.1 m).1, if (ingest st.1 m).2 then st.2 ++ [m] else st.2)

/-- Feeding a whole stream of `new-message` events into an initially empty
log. Returns the final log and the accepted messages in acceptance order. -/
def ingestFold (msgs : List Message) : List Message × List Message :=
  msgs.foldl ingestStep ([], [])

/-- Concrete stream of 101 pairwise-distinct messages for the C5 witness. -/
def c5Msgs : List Message :=
  (List.range 101).map (fun i => ⟨toString i, toString i, "u", "U", "a", 0⟩)

/-- The sweep `cleanupTypingUsers` (part_002 lines 1619-1626): the periodic sweep
keeps only typing signals whose `startedAt` lies less than 5000 ms before
`now`. Both times are epoch milliseconds. -/
def cleanupTypingUsers (now : Int) (prev : List TypingUser) : List TypingUser :=
  prev.filter (fun user => now - user.startedAt < 5000)

/-- The sender object handed to `sendMessage`; `joinedAt` is passed along
but never validated. A missing/empty field models a falsy value. -/
structure Sender where
  id : String
  name : String
  avatar : String
  deriving DecidableEq, Repr

/-- The check `!message || typeof message !== 'string' || message.trim().length === 0`
(part_002 line 1083). `none` models a non-string argument. -/
def isInvalidMessage : Option String → Bool
  | none => true
  | some s => s == "" || s.trim == ""

/-- The check `!user || !user.id || !user.name || !user.avatar` (part_002 line 1087). -/
def isInvalidSender : Option Sender → Bool
  | none => true
  | some u => u.id == "" || u.name == "" || u.avatar == ""

/-- The check `message.length > 1000` (part_002 line 1091). -/
def isTooLong : Option String → Bool
  | none => false
  | some s => s.length > 1000

/-- The validation gate of `sendMessage` (part_002 lines 1082-1100) up to
the point at which the POST to `/api/pusher` is issued: `.ok ()` means the
request is sent, `.error` means the call throws before any request. -/
def sendMessageGate (message : Option String) (user : Option Sender)
    (connected : Bool) : Except String Unit :=
  if isInvalidMessage message then .error "Invalid message: empty or non-string"
  else if isInvalidSender user then .error "Invalid user data: missing required fields"
  else if isTooLong message then .error "Message too long: maximum 1000 characters"
  else if !connected then .error "Not connected to Pusher"
  else .ok ()

/-- The `{...existingUser, ...user}` spread of the `user-joined` handler
(part_002 line 718): the incoming join event carries the full `User`
object, so every field of the existing entry is overwritten. -/
def mergeUser (_existing user : User) : User :=
  ⟨user.id, user.name, user.avatar, user.joinedAt⟩

/-- The `channel.bind('user-joined')` handler of part_002 (lines 695-721):
if the id is not yet in the roster the user is appended, otherwise the
existing entry is updated in place via the object spread. -/
def applyJoin (prev : List User) (user : User) : List User :=
  if prev.any (fun u => u.id == user.id) then
    prev.map (fun existingUser =>
      if existingUser.id == user.id then mergeUser existingUser user else existingUser)
  else prev ++ [user]

/-- The function `syncWithServer` (part_002 lines 202-242): reconcile the local roster
with the authoritative snapshot `activeUsers`. The snapshot is first
stripped of the local session's own id; then users present only on the
server are added and local users absent from the (stripped) snapshot are
removed, keeping the local session's own entry unconditionally. -/
def syncWithServer (currentUserId : String) (prev activeUsers : List User) :
    List User :=
  let serverUsers := activeUsers.filter (fun user => user.id != currentUserId)
  let usersToAdd := serverUsers.filter (fun u => !(prev.any (fun v => v.id == u.id)))
  let usersToKeep := prev.filter (fun u =>
    serverUsers.any (fun v => v.id == u.id) || u.id == currentUserId)
  usersToKeep ++ usersToAdd

/-- Ordering by `timestamp`, the comparator of the buffered-message replay
(`(a, b) => new Date(a.timestamp).getTime() - new Date(b.timestamp).getTime()`,
part_002 line 127). -/
def tsLE (a b : Message) : Prop := a.timestamp ≤ b.timestamp

instance : DecidableRel tsLE := fun a b => by unfold tsLE; infer_instance

instance : IsTotal Message tsLE := ⟨fun a b => Int.le_total a.timestamp b.timestamp⟩

instance : IsTrans Message tsLE := ⟨fun _ _ _ h1 h2 => le_trans h1 h2⟩

/-- The `messages.forEach` merge loop of the `BUFFERED_MESSAGES` handler
(part_002 lines 119-126): each replayed message is appended unless a
message with the same id is already present. Note this path checks only
the id. -/
def mergeById (prev batch : List Message) : List Message :=
  batch.foldl (fun newMessages msg =>
    if newMessages.any (fun existing => existing.id == msg.id) then newMessages
    else newMessages ++ [msg]) prev

/-- The full `BUFFERED_MESSAGES` handler (part_002 lines 116-128): merge
by id, then sort the whole log by timestamp. `Array.prototype.sort` with
the numeric comparator is embedded as insertion sort: same elements,
result sorted by `tsLE`. -/
def replayBuffered (prev batch : List Message) : List Message :=
  List.insertionSort tsLE (mergeById prev batch)

/-- Modelled from the spec (for comparison only, not part of the code):
the replay path the claim describes, in which each replayed item is
subjected to the same duplicate rule as a live-delivered message — reject
by id or by (sender, text, time-window) — before the merged log is ordered
by timestamp. -/
def replayBufferedSpecRule (prev batch : List Message) : List Message :=
  List.insertionSort tsLE
    (batch.foldl (fun acc msg =>
      if acc.any (fun existing => sameLogical existing msg) then acc
      else acc ++ [msg]) prev)

/-- The method `MessageBuffer.addMessage` (part_013 lines 64-100): reject when the
buffer already holds a duplicate by id or by (text, userId, 5-second
window); otherwise push and apply the 50-entry buffer cap. The boolean is
the method's return value (`true` = added). The `receivedAt`/`isRead`
bookkeeping fields play no part in deduplication and are not modelled. -/
def addMessage (buffer : List Message) (message : Message) :
    List Message × Bool :=
  if buffer.any (fun buffered => sameLogical buffered message) then
    (buffer, false)
  else (cap 50 (buffer ++ [message]), true)

/-- Substring containment on character lists, the model of
`String.prototype.includes`. -/
def hasSubstr : List Char → List Char → Bool
  | [], needle => needle.isEmpty
  | l@(_ :: t), needle => needle.isPrefixOf l || hasSubstr t needle

/-- The system-message test of the live `new-message` handler (part_002
lines 570-575): the text contains one of the four markers. (The handler
guards with `message.text && …`; an empty text contains no marker, so the
guard is subsumed.) -/
def containsMarker (text : String) : Bool :=
  hasSubstr text.data "[SYSTEM]".data || hasSubstr text.data "[ERROR]".data ||
    hasSubstr text.data "Application error:".data ||
    hasSubstr text.data "client-side exception".data

/-- The live `channel.bind('new-message')` handler of part_002 (lines
565-690). State is (message log, message buffer). A marker message
returns before touching either; otherwise the message goes through
`addMessageToBuffer`, and only when the buffer accepted it is the log
updated (duplicate check by id, append, 100-entry cap). The
notification-side effects do not touch the log and are not modelled. -/
def handleNewMessage (st : List Message × List Message) (message : Message) :
    List Message × List Message :=
  if containsMarker message.text then st
  else if (addMessage st.2 message).2 then
    (if st.1.any (fun existingMsg => existingMsg.id == message.id) then st.1
     else cap 100 (st.1 ++ [message]),
     (addMessage st.2 message).1)
  else (st.1, (addMessage st.2 message).1)

/-- pusher-js connection states, as read through
`globalPusherInstance.connection.state`. -/
inductive ConnState where
  | initialized | connecting | connected | unavailable | failed | disconnected
  deriving DecidableEq, Repr

/-- The module-level state of `lib/pusher-singleton.ts`: the global
instance (with its connection state), the global channel, the user
counter, plus two observation counters — how many times `new Pusher(...)`
ran and how many times a live instance was disconnected. -/
structure PusherGlobal where
  inst : Option ConnState
  hasChannel : Bool
  users : Nat
  createdCount : Nat
  cleanupCount : Nat
  deriving DecidableEq, Repr

def initialGlobal : PusherGlobal :=
  { inst := none, hasChannel := false, users := 0,
    createdCount := 0, cleanupCount := 0 }

/-- The function `cleanupPusherInstance` (pusher-singleton.ts lines 199-222):
unsubscribe, disconnect, null both globals, reset the counter. A teardown
is counted when a live instance was actually disconnected. -/
def cleanupPusherInstance (g : PusherGlobal) : PusherGlobal :=
  { inst := none, hasChannel := false, users := 0,
    createdCount := g.createdCount,
    cleanupCount := g.cleanupCount + (if g.inst.isSome then 1 else 0) }

/-- Creation of a fresh instance, `new Pusher(...)` + `pusher.subscribe('chat')` (pusher-singleton.ts
lines 154-171): fresh connection starts connecting, counter set to 1. -/
def createNewInstance (g : PusherGlobal) : PusherGlobal :=
  { inst := some .connecting, hasChannel := true, users := 1,
    createdCount := g.createdCount + 1, cleanupCount := g.cleanupCount }

/-- The function `getPusherInstance` (pusher-singleton.ts lines 129-180). `configValid`
models `validatePusherConfigClient()`. Result: updated globals and
`none` on configuration failure, else `some isReused`. An existing
instance in `connected`/`connecting` state is reused with the counter
incremented; a stale instance is cleaned up first; otherwise a fresh
instance is created. -/
def getPusherInstance (configValid : Bool) (g : PusherGlobal) :
    PusherGlobal × Option Bool :=
  if !configValid then (g, none)
  else
    match g.inst, g.hasChannel with
    | some state, true =>
      if state = .connected ∨ state = .connecting then
        ({ g with users := g.users + 1 }, some true)
      else
        (createNewInstance (cleanupPusherInstance g), some false)
    | _, _ => (createNewInstance g, some false)

/-- The function `releasePusherInstance` (pusher-singleton.ts lines 182-197, the
delayed-cleanup revision): decrement (floored at 0); when the counter
reaches zero a delayed cleanup is scheduled after the grace delay — the
boolean reports whether a timer was scheduled. -/
def releasePusherInstance (g : PusherGlobal) : PusherGlobal × Bool :=
  if g.users - 1 = 0 then ({ g with users := 0 }, true)
  else ({ g with users := g.users - 1 }, false)

/-- The body of the delayed-cleanup `setTimeout` (pusher-singleton.ts
lines 190-195): clean up only if the counter is still zero. -/
def delayedCleanupFire (g : PusherGlobal) : PusherGlobal :=
  if g.users = 0 then cleanupPusherInstance g else g

/-- Run every scheduled cleanup timer whose deadline has passed by `now`,
in schedule order; return the new globals and the remaining timers. -/
def fireDue (now : Nat) : List Nat → PusherGlobal → PusherGlobal × List Nat
  | [], g => (g, [])
  | d :: rest, g =>
    if d ≤ now then fireDue now rest (delayedCleanupFire g)
    else
      match fireDue now rest g with
      | (g', rest') => (g', d :: rest')

/-- An externally-driven event against the singleton: a consumer acquires
or releases the shared handle. -/
inductive SEvent where
  | acquire | release
  deriving DecidableEq, Repr

/-- Scheduler state: the singleton globals plus the pending delayed
cleanup deadlines. -/
structure SchedState where
  g : PusherGlobal
  timers : List Nat
  deriving DecidableEq, Repr

/-- Process one timed event: first fire the timers due by that moment,
then perform the acquire (with valid configuration) or release, recording
a newly scheduled cleanup deadline `now + delay`. -/
def stepS (delay : Nat) (st : SchedState) (te : Nat × SEvent) : SchedState :=
  match fireDue te.1 st.timers st.g with
  | (g, timers) =>
    match te.2 with
    | .acquire => { g := (getPusherInstance true g).1, timers := timers }
    | .release =>
      match releasePusherInstance g with
      | (g', true) => { g := g', timers := timers ++ [te.1 + delay] }
      | (g', false) => { g := g', timers := timers }

/-- Run a timed event trace against the pristine module state. -/
def runS (delay : Nat) (evs : List (Nat × SEvent)) : SchedState :=
  evs.foldl (stepS delay) { g := initialGlobal, timers := [] }

/-- The acquisition step of `initializePusher` (part_002 lines 430-811): call
`getPusherInstance`, and bind the connection/channel event handlers only
under the `if (!isReused)` guard (part_002 lines 467-469; reused branch
lines 803-811 skips binding). `didBind` records whether handlers were
bound. -/
structure InitResult where
  g : PusherGlobal
  acquired : Option Bool
  didBind : Bool
  deriving DecidableEq, Repr

def initializePusher (configValid : Bool) (g : PusherGlobal) : InitResult :=
  match getPusherInstance configValid g with
  | (g', none) => ⟨g', none, false⟩
  | (g', some isReused) => ⟨g', some isReused, !isReused⟩

theorem cap_eq_drop (n : Nat) (l : List Message) :
    cap n l = l.drop (l.length - n) := by
  unfold cap
  split
  · rfl
  · next h =>
    have : l.length - n = 0 := by omega
    simp [this]

theorem ingest_snd_false_iff (prev : List Message) (m : Message) :
    (ingest prev m).2 = false ↔ ∃ e ∈ prev, sameLogical e m = true := by
  unfold ingest
  split
  · next h =>
    simp only [Bool.or_eq_true, List.any_eq_true] at h
    simp only [true_iff]
    rcases h with ⟨e, he, h1⟩ | ⟨e, he, h2⟩
    · exact ⟨e, he, by simp [sameLogical, h1]⟩
    · exact ⟨e, he, by simp only [sameLogical, h2, Bool.or_true]⟩
  · next h =>
    simp only [Bool.or_eq_true, List.any_eq_true] at h
    push_neg at h
    obtain ⟨h1, h2⟩ := h
    constructor
    · intro hfalse; cases hfalse
    · rintro ⟨e, he, hs⟩
      exfalso
      simp only [sameLogical, Bool.or_eq_true] at hs
      rcases hs with hid | hc
      · exact absurd hid (by simpa using h1 e he)
      · exact absurd hc (by simpa using h2 e he)

/-- C1. `ingest` rejects a candidate (returns `false`, log unchanged) iff
the log already holds the same logical message — same id, or same sender
and text with timestamps under 5 seconds apart; otherwise the candidate is
appended at the end of the log (with the retention cap applied in front). -/
theorem C1_ingest_dedup (prev : List Message) (m : Message) :
    ((ingest prev m).2 = false ↔ ∃ e ∈ prev, sameLogical e m = true)
    ∧ ((ingest prev m).2 = false → (ingest prev m).1 = prev)
    ∧ ((ingest prev m).2 = true →
        (ingest prev m).1 = (prev ++ [m]).drop (prev.length + 1 - 100)) := by
  refine ⟨ingest_snd_false_iff prev m, ?_, ?_⟩
  · unfold ingest
    split
    · intro _; rfl
    · intro h; exact absurd h (by simp)
  · unfold ingest
    split
    · intro h; exact absurd h (by simp)
    · intro _
      show cap 100 (prev ++ [m]) = (prev ++ [m]).drop (prev.length + 1 - 100)
      rw [cap_eq_drop]
      simp

/-- Witness for C1 at a concrete log and candidate. -/
theorem C1_ingest_dedup_witness :
    let m1 : Message := ⟨"a", "hi", "u1", "U1", "av", 0⟩
    let m2 : Message := ⟨"b", "hi", "u1", "U1", "av", 3000⟩
    ((ingest [m1] m2).2 = false ↔ ∃ e ∈ [m1], sameLogical e m2 = true)
    ∧ ((ingest [m1] m2).2 = false → (ingest [m1] m2).1 = [m1])
    ∧ ((ingest [m1] m2).2 = true →
        (ingest [m1] m2).1 = ([m1] ++ [m2]).drop ([m1].length + 1 - 100)) :=
  C1_ingest_dedup [⟨"a", "hi", "u1", "U1", "av", 0⟩] ⟨"b", "hi", "u1", "U1", "av", 3000⟩

theorem ingest_of_rejected (prev : List Message) (m : Message)
    (h : (ingest prev m).2 = false) : (ingest prev m).1 = prev := by
  unfold ingest at h ⊢
  split at h
  · next hc => rw [if_pos hc]
  · exact absurd h (by simp)

theorem ingest_of_accepted (prev : List Message) (m : Message)
    (h : (ingest prev m).2 = true) : (ingest prev m).1 = cap 100 (prev ++ [m]) := by
  unfold ingest at h ⊢
  split at h
  · exact absurd h (by simp)
  · next hc => rw [if_neg hc]

/-- Re-capping after appending one element to an already-capped list is the
same as capping the full appended list: `slice(-n)` applied incrementally
agrees with `slice(-n)` of the whole history. -/
theorem cap_drop_append (n : Nat) (hn : 0 < n) (l : List Message) (m : Message) :
    cap n (l.drop (l.length - n) ++ [m]) = (l ++ [m]).drop ((l ++ [m]).length - n) := by
  rw [cap_eq_drop]
  by_cases hk : l.length ≤ n
  · have h0 : l.length - n = 0 := by omega
    simp only [h0, List.drop_zero]
  · push_neg at hk
    have hdl : (l.drop (l.length - n)).length = n := by
      rw [List.length_drop]; omega
    have hlen2 : (l.drop (l.length - n) ++ [m]).length = n + 1 := by
      simp [hdl]
    rw [hlen2]
    have h1 : n + 1 - n = 1 := by omega
    rw [h1]
    rw [List.drop_append_eq_append_drop, List.drop_drop, hdl]
    have h2 : (1 : Nat) - n = 0 := by omega
    rw [h2, List.drop_zero]
    rw [List.drop_append_eq_append_drop]
    have h3 : (l ++ [m]).length - n = l.length + 1 - n := by
      simp
    rw [h3]
    have h4 : l.length + 1 - n - l.length = 0 := by omega
    rw [h4, List.drop_zero]
    have h5 : l.length - n + 1 = l.length + 1 - n := by omega
    rw [h5]

theorem ingestStep_rejected (st : List Message × List Message) (m : Message)
    (h : (ingest st.1 m).2 = false) : ingestStep st m = (st.1, st.2) := by
  unfold ingestStep
  rw [ingest_of_rejected _ _ h, h]
  simp

theorem ingestStep_accepted (st : List Message × List Message) (m : Message)
    (h : (ingest st.1 m).2 = true) :
    ingestStep st m = (cap 100 (st.1 ++ [m]), st.2 ++ [m]) := by
  unfold ingestStep
  rw [ingest_of_accepted _ _ h, h]
  simp

theorem ingestFold_inv (msgs : List Message) :
    ∀ st : List Message × List Message,
      st.1 = st.2.drop (st.2.length - 100) →
      (msgs.foldl ingestStep st).1 =
        (msgs.foldl ingestStep st).2.drop
          ((msgs.foldl ingestStep st).2.length - 100) := by
  induction msgs with
  | nil => intro st h; exact h
  | cons m rest ih =>
    intro st h
    simp only [List.foldl_cons]
    apply ih
    rcases hacc : (ingest st.1 m).2 with _ | _
    · rw [ingestStep_rejected st m hacc]
      exact h
    · rw [ingestStep_accepted st m hacc]
      show cap 100 (st.1 ++ [m]) = (st.2 ++ [m]).drop ((st.2 ++ [m]).length - 100)
      rw [h]
      exact cap_drop_append 100 (by omega) st.2 m

/-- C5. After a stream of events in which more than 100 messages were
accepted, the log is exactly the 100 most recently accepted messages, in
acceptance order (the older accepted messages have been evicted from the
front by the `slice(-100)` cap). -/
theorem C5_retention_cap (msgs : List Message)
    (h : 100 < (ingestFold msgs).2.length) :
    (ingestFold msgs).1 =
      (ingestFold msgs).2.drop ((ingestFold msgs).2.length - 100)
    ∧ (ingestFold msgs).1.length = 100 := by
  have hinv : (ingestFold msgs).1 =
      (ingestFold msgs).2.drop ((ingestFold msgs).2.length - 100) :=
    ingestFold_inv msgs ([], []) (by simp)
  refine ⟨hinv, ?_⟩
  rw [hinv, List.length_drop]
  omega

set_option maxRecDepth 100000 in
/-- Witness for C5: 101 distinct messages are all accepted and the final
log is the last 100 of them. -/
theorem C5_retention_cap_witness :
    100 < (ingestFold c5Msgs).2.length
    ∧ ((ingestFold c5Msgs).1 =
        (ingestFold c5Msgs).2.drop ((ingestFold c5Msgs).2.length - 100)
      ∧ (ingestFold c5Msgs).1.length = 100) :=
  ⟨by decide, C5_retention_cap c5Msgs (by decide)⟩

/-- C8. Any tracked typing signal whose start time is more than the
5-second expiry window in the past at sweep time is absent from the
tracked set after the sweep. The sweep consults only `startedAt`, so this
holds whether or not a stop-typing event was ever delivered. -/
theorem C8_typing_expiry (now : Int) (prev : List TypingUser) (u : TypingUser)
    (hold : 5000 < now - u.startedAt) :
    u ∉ cleanupTypingUsers now prev := by
  intro hmem
  unfold cleanupTypingUsers at hmem
  rw [List.mem_filter] at hmem
  have h2 := hmem.2
  simp only [decide_eq_true_eq] at h2
  omega

/-- Witness for C8: a signal started 6 seconds before the sweep is gone. -/
theorem C8_typing_expiry_witness :
    (5000 : Int) < 10000 - 4000
    ∧ (⟨"u1", "U1", 4000⟩ : TypingUser) ∉
        cleanupTypingUsers 10000 [⟨"u1", "U1", 4000⟩, ⟨"u2", "U2", 9000⟩] :=
  ⟨by decide, C8_typing_expiry 10000 [⟨"u1", "U1", 4000⟩, ⟨"u2", "U2", 9000⟩]
    ⟨"u1", "U1", 4000⟩ (by decide)⟩

/-- C9. Whenever the text is empty/not a string, or over the length bound,
or the sender is missing id, name or avatar, `sendMessage` fails with an
error and no request is issued to the backing API (the gate never reaches
`.ok`). -/
theorem C9_send_validation (message : Option String) (user : Option Sender)
    (connected : Bool)
    (h : isInvalidMessage message = true ∨ isInvalidSender user = true
        ∨ isTooLong message = true) :
    ∃ e, sendMessageGate message user connected = .error e := by
  unfold sendMessageGate
  rcases hm : isInvalidMessage message with _ | _
  · rcases hu : isInvalidSender user with _ | _
    · rcases ht : isTooLong message with _ | _
      · rcases h with h | h | h
        · rw [hm] at h; cases h
        · rw [hu] at h; cases h
        · rw [ht] at h; cases h
      · refine ⟨"Message too long: maximum 1000 characters", ?_⟩
        simp [hm, hu, ht]
    · refine ⟨"Invalid user data: missing required fields", ?_⟩
      simp [hm, hu]
  · refine ⟨"Invalid message: empty or non-string", ?_⟩
    simp [hm]

/-- Witness for C9: an empty message text is rejected and no request is
issued. -/
theorem C9_send_validation_witness :
    (isInvalidMessage (some "") = true
      ∨ isInvalidSender (some ⟨"u", "U", "a"⟩) = true
      ∨ isTooLong (some "") = true)
    ∧ ∃ e, sendMessageGate (some "") (some ⟨"u", "U", "a"⟩) true = .error e :=
  ⟨Or.inl (by decide),
    C9_send_validation (some "") (some ⟨"u", "U", "a"⟩) true (Or.inl (by decide))⟩

/-- C7. A join event for an id already in the roster leaves the roster
size unchanged (no duplicate entry), every entry carrying that id now
holds the newest event's data, and all other entries are untouched. -/
theorem C7_join_overwrite (prev : List User) (user : User)
    (h : ∃ e ∈ prev, e.id = user.id) :
    (applyJoin prev user).length = prev.length
    ∧ (∀ x ∈ applyJoin prev user, x.id = user.id → x = user)
    ∧ (∀ x ∈ prev, x.id ≠ user.id → x ∈ applyJoin prev user) := by
  obtain ⟨e, he, hid⟩ := h
  have hany : prev.any (fun u => u.id == user.id) = true := by
    rw [List.any_eq_true]
    exact ⟨e, he, by simp [hid]⟩
  unfold applyJoin
  rw [if_pos hany]
  refine ⟨List.length_map _ _, ?_, ?_⟩
  · intro x hx hxid
    rw [List.mem_map] at hx
    obtain ⟨y, _, hy⟩ := hx
    by_cases hyid : y.id == user.id
    · rw [if_pos hyid] at hy
      rw [← hy]
      rfl
    · rw [if_neg hyid] at hy
      subst hy
      exact absurd hxid (by simpa using hyid)
  · intro x hx hxid
    rw [List.mem_map]
    refine ⟨x, hx, ?_⟩
    rw [if_neg (by simpa using hxid)]

/-- Witness for C7: re-joining with fresh presence data overwrites the
roster entry and keeps the size at 2. -/
theorem C7_join_overwrite_witness :
    let old : User := ⟨"u1", "Old", "a1", "t0"⟩
    let other : User := ⟨"u2", "Two", "a2", "t0"⟩
    let fresh : User := ⟨"u1", "New", "a9", "t5"⟩
    (applyJoin [old, other] fresh).length = ([old, other] : List User).length
    ∧ (∀ x ∈ applyJoin [old, other] fresh, x.id = fresh.id → x = fresh)
    ∧ (∀ x ∈ [old, other], x.id ≠ fresh.id → x ∈ applyJoin [old, other] fresh) :=
  C7_join_overwrite [⟨"u1", "Old", "a1", "t0"⟩, ⟨"u2", "Two", "a2", "t0"⟩]
    ⟨"u1", "New", "a9", "t5"⟩ ⟨⟨"u1", "Old", "a1", "t0"⟩, by simp, rfl⟩

/-- Counterexample to C6 as stated: the snapshot contains the local
session's own participant and it is missing locally, yet reconciliation
does not add it — the snapshot is filtered against the local session's id
before any merging, so the own participant is never added (nor removed)
by a snapshot. -/
theorem C6_snapshot_cex :
    syncWithServer "me" [] [⟨"me", "Me", "a", "t0"⟩] = [] := by decide

/-- C6 as amended: every participant of the snapshot other than the local
session's own that is missing locally is added; every local participant
other than the own one whose id is absent from the snapshot is removed;
and the local session's own participant is never removed. -/
theorem C6_snapshot_reconcile (currentUserId : String)
    (prev activeUsers : List User) :
    (∀ u ∈ activeUsers, u.id ≠ currentUserId →
      (∀ v ∈ prev, v.id ≠ u.id) →
      u ∈ syncWithServer currentUserId prev activeUsers)
    ∧ (∀ v ∈ prev, v.id ≠ currentUserId →
        (∀ u ∈ activeUsers, u.id ≠ v.id) →
        ∀ w ∈ syncWithServer currentUserId prev activeUsers, w.id ≠ v.id)
    ∧ (∀ v ∈ prev, v.id = currentUserId →
        v ∈ syncWithServer currentUserId prev activeUsers) := by
  unfold syncWithServer
  simp only [List.mem_append, List.mem_filter, List.any_eq_true, Bool.or_eq_true,
    bne_iff_ne, beq_iff_eq, Bool.not_eq_true', List.any_eq_false, beq_eq_false_iff_ne]
  refine ⟨?_, ?_, ?_⟩
  · intro u hu hself hmiss
    right
    exact ⟨⟨hu, hself⟩, fun v hv hc => hmiss v hv hc⟩
  · intro v hv hself hmiss w hw
    rcases hw with ⟨hwp, hcond⟩ | ⟨⟨hwa, _⟩, _⟩
    · rcases hcond with ⟨x, ⟨hxa, _⟩, hxw⟩ | hwc
      · intro hwv
        exact hmiss x hxa (by rw [hxw, hwv])
      · intro hwv
        exact hself (by rw [← hwv, hwc])
    · intro hwv
      exact hmiss w hwa hwv
  · intro v hv hvid
    left
    exact ⟨hv, Or.inr hvid⟩

/-- Witness for C6 (amended) at a concrete roster and snapshot: `"n"` is
added, `"g"` is removed, the own entry `"me"` survives. -/
theorem C6_snapshot_reconcile_witness :
    (∀ u ∈ [(⟨"n", "New", "a", "t"⟩ : User)], u.id ≠ "me" →
      (∀ v ∈ [(⟨"me", "Me", "a", "t"⟩ : User), ⟨"g", "Gone", "a", "t"⟩], v.id ≠ u.id) →
      u ∈ syncWithServer "me" [⟨"me", "Me", "a", "t"⟩, ⟨"g", "Gone", "a", "t"⟩]
        [⟨"n", "New", "a", "t"⟩])
    ∧ (∀ v ∈ [(⟨"me", "Me", "a", "t"⟩ : User), ⟨"g", "Gone", "a", "t"⟩], v.id ≠ "me" →
        (∀ u ∈ [(⟨"n", "New", "a", "t"⟩ : User)], u.id ≠ v.id) →
        ∀ w ∈ syncWithServer "me" [⟨"me", "Me", "a", "t"⟩, ⟨"g", "Gone", "a", "t"⟩]
          [⟨"n", "New", "a", "t"⟩], w.id ≠ v.id)
    ∧ (∀ v ∈ [(⟨"me", "Me", "a", "t"⟩ : User), ⟨"g", "Gone", "a", "t"⟩], v.id = "me" →
        v ∈ syncWithServer "me" [⟨"me", "Me", "a", "t"⟩, ⟨"g", "Gone", "a", "t"⟩]
          [⟨"n", "New", "a", "t"⟩]) :=
  C6_snapshot_reconcile "me" [⟨"me", "Me", "a", "t"⟩, ⟨"g", "Gone", "a", "t"⟩]
    [⟨"n", "New", "a", "t"⟩]

/-- Counterexample to C4 as stated: a replayed message that duplicates an
existing log entry by content and time window (but has a different id) is
accepted by the replay path, though the live rule — which the claim says
also governs this path — would reject it. -/
theorem C4_replay_cex :
    let m1 : Message := ⟨"a", "hi", "u", "U", "av", 0⟩
    let m2 : Message := ⟨"b", "hi", "u", "U", "av", 1000⟩
    sameLogical m1 m2 = true
    ∧ replayBuffered [m1] [m2] ≠ replayBufferedSpecRule [m1] [m2]
    ∧ (replayBuffered [m1] [m2]).length = 2 := by
  refine ⟨by decide, by decide, by decide⟩

theorem mergeById_nil (prev : List Message) : mergeById prev [] = prev := rfl

theorem mergeById_cons (prev : List Message) (m : Message) (rest : List Message) :
    mergeById prev (m :: rest) =
      mergeById (if prev.any (fun e => e.id == m.id) then prev else prev ++ [m])
        rest := rfl

theorem mem_mergeById_of_mem (batch : List Message) :
    ∀ prev : List Message, ∀ x ∈ prev, x ∈ mergeById prev batch := by
  induction batch with
  | nil => intro prev x hx; exact hx
  | cons m rest ih =>
    intro prev x hx
    rw [mergeById_cons]
    apply ih
    split
    · exact hx
    · exact List.mem_append_left _ hx

theorem mergeById_id_surfaces (batch : List Message) :
    ∀ prev : List Message, ∀ m ∈ batch,
      ∃ e ∈ mergeById prev batch, e.id = m.id := by
  induction batch with
  | nil => intro _ m hm; cases hm
  | cons m' rest ih =>
    intro prev m hm
    rw [mergeById_cons]
    rcases List.mem_cons.mp hm with heq | htail
    · subst heq
      split
      · next hany =>
        rw [List.any_eq_true] at hany
        obtain ⟨e, he, hid⟩ := hany
        exact ⟨e, mem_mergeById_of_mem rest prev e he, by simpa using hid⟩
      · exact ⟨m, mem_mergeById_of_mem rest _ m (List.mem_append_right _ (by simp)), rfl⟩
    · exact ih _ m htail

theorem mergeById_all_dup (batch : List Message) :
    ∀ prev : List Message, (∀ m ∈ batch, ∃ e ∈ prev, e.id = m.id) →
      mergeById prev batch = prev := by
  induction batch with
  | nil => intro _ _; rfl
  | cons m rest ih =>
    intro prev h
    rw [mergeById_cons]
    have hany : prev.any (fun e => e.id == m.id) = true := by
      rw [List.any_eq_true]
      obtain ⟨e, he, hid⟩ := h m (by simp)
      exact ⟨e, he, by simp [hid]⟩
    rw [if_pos hany]
    exact ih prev (fun x hx => h x (List.mem_cons_of_mem _ hx))

/-- C4 as amended: the replay path deduplicates each buffered item by id
only (the content/time-window fallback of the live path is not applied):
every replayed item whose id is absent from the log surfaces in the
result, a batch consisting entirely of id-duplicates leaves the log's
contents unchanged (up to the re-sort the handler always performs), and
the resulting log is ordered by the messages' timestamps. -/
theorem C4_replay_id_dedup_sorted (prev batch : List Message) :
    (replayBuffered prev batch).Sorted tsLE
    ∧ (∀ m ∈ batch, (∀ e ∈ prev, e.id ≠ m.id) →
        ∃ e ∈ replayBuffered prev batch, e.id = m.id)
    ∧ ((∀ m ∈ batch, ∃ e ∈ prev, e.id = m.id) →
        replayBuffered prev batch = List.insertionSort tsLE prev) := by
  refine ⟨List.sorted_insertionSort tsLE _, ?_, ?_⟩
  · intro m hm _
    obtain ⟨e, he, hid⟩ := mergeById_id_surfaces batch prev m hm
    exact ⟨e, (List.mem_insertionSort tsLE).mpr he, hid⟩
  · intro h
    unfold replayBuffered
    rw [mergeById_all_dup batch prev h]

/-- Witness for C4 (amended) at a concrete log and batch. -/
theorem C4_replay_id_dedup_sorted_witness :
    let m1 : Message := ⟨"a", "hi", "u", "U", "av", 5000⟩
    let m2 : Message := ⟨"b", "yo", "v", "V", "av", 1000⟩
    ((replayBuffered [m1] [m2]).Sorted tsLE
    ∧ (∀ m ∈ [m2], (∀ e ∈ [m1], e.id ≠ m.id) →
        ∃ e ∈ replayBuffered [m1] [m2], e.id = m.id)
    ∧ ((∀ m ∈ [m2], ∃ e ∈ [m1], e.id = m.id) →
        replayBuffered [m1] [m2] = List.insertionSort tsLE [m1])) :=
  C4_replay_id_dedup_sorted [⟨"a", "hi", "u", "U", "av", 5000⟩]
    [⟨"b", "yo", "v", "V", "av", 1000⟩]

theorem mem_cap (n : Nat) (l : List Message) (x : Message) (hx : x ∈ cap n l) :
    x ∈ l := by
  rw [cap_eq_drop] at hx
  exact List.mem_of_mem_drop hx

theorem handleNewMessage_log_sub (st : List Message × List Message)
    (message : Message) :
    ∀ x ∈ (handleNewMessage st message).1,
      x ∈ st.1 ∨ (x = message ∧ containsMarker message.text = false) := by
  intro x hx
  unfold handleNewMessage at hx
  split at hx
  · exact Or.inl hx
  · next hmark =>
    split at hx
    · simp only at hx
      split at hx
      · exact Or.inl hx
      · rcases List.mem_append.mp (mem_cap 100 _ x hx) with h | h
        · exact Or.inl h
        · exact Or.inr ⟨List.mem_singleton.mp h, by simpa using hmark⟩
    · exact Or.inl hx

theorem foldl_handle_no_marker (msgs : List Message) :
    ∀ st : List Message × List Message,
      (∀ m ∈ st.1, containsMarker m.text = false) →
      ∀ m ∈ (msgs.foldl handleNewMessage st).1, containsMarker m.text = false := by
  induction msgs with
  | nil => exact fun st h => h
  | cons msg rest ih =>
    intro st h
    simp only [List.foldl_cons]
    apply ih
    intro x hx
    rcases handleNewMessage_log_sub st msg x hx with hmem | ⟨heq, hmark⟩
    · exact h x hmem
    · rw [heq]; exact hmark

/-- C10. A message whose text contains `[SYSTEM]`, `[ERROR]`,
`Application error:` or `client-side exception` is dropped by the live
handler before any deduplication or buffering — the whole state (log and
buffer) is returned untouched, whatever the sender or id — and
consequently a log that contains no marker message still contains none
after any stream of live deliveries. -/
theorem C10_system_filter :
    (∀ st : List Message × List Message, ∀ message : Message,
      containsMarker message.text = true → handleNewMessage st message = st)
    ∧ (∀ msgs : List Message, ∀ log₀ buf₀ : List Message,
        (∀ m ∈ log₀, containsMarker m.text = false) →
        ∀ m ∈ (msgs.foldl handleNewMessage (log₀, buf₀)).1,
          containsMarker m.text = false) := by
  constructor
  · intro st message h
    unfold handleNewMessage
    rw [if_pos h]
  · intro msgs log₀ buf₀ h
    exact foldl_handle_no_marker msgs (log₀, buf₀) h

/-- Witness for C10: a `[SYSTEM]` message leaves the state untouched, and
a stream of one marker and one ordinary message yields a marker-free log. -/
theorem C10_system_filter_witness :
    let sys : Message := ⟨"s", "[SYSTEM] boom", "u", "U", "av", 0⟩
    let ok : Message := ⟨"k", "hello", "u", "U", "av", 1⟩
    (containsMarker sys.text = true → handleNewMessage ([], []) sys = ([], []))
    ∧ ((∀ m ∈ ([] : List Message), containsMarker m.text = false) →
        ∀ m ∈ ([sys, ok].foldl handleNewMessage (([] : List Message), ([] : List Message))).1,
          containsMarker m.text = false) :=
  ⟨fun h => C10_system_filter.1 ([], []) ⟨"s", "[SYSTEM] boom", "u", "U", "av", 0⟩ h,
    fun h => C10_system_filter.2 [⟨"s", "[SYSTEM] boom", "u", "U", "av", 0⟩,
      ⟨"k", "hello", "u", "U", "av", 1⟩] [] [] h⟩

/-- C2. With the grace delay `delay`, after `acquire(t0); release(t1)` the
connection is still alive (no teardown yet); it is torn down only once a
timer fires at or past `t1 + delay` with no intervening acquire; and for
two sequential acquire/release pairs whose gap `t2 - t1` is below the
grace delay, the connection is created exactly once and never torn down
in between — the second acquire lands on the live instance and defuses
the pending cleanup. -/
theorem C2_grace_delay_teardown (delay t0 t1 t2 t3 : Nat)
    (h01 : t0 ≤ t1) (h12 : t1 ≤ t2) (h23 : t2 ≤ t3)
    (hgap : t2 < t1 + delay) :
    ((runS delay [(t0, .acquire), (t1, .release)]).g.inst.isSome = true
      ∧ (runS delay [(t0, .acquire), (t1, .release)]).g.cleanupCount = 0)
    ∧ (∀ T, t1 + delay ≤ T →
        (fireDue T (runS delay [(t0, .acquire), (t1, .release)]).timers
          (runS delay [(t0, .acquire), (t1, .release)]).g).1.inst = none
        ∧ (fireDue T (runS delay [(t0, .acquire), (t1, .release)]).timers
            (runS delay [(t0, .acquire), (t1, .release)]).g).1.cleanupCount = 1)
    ∧ (runS delay [(t0, .acquire), (t1, .release), (t2, .acquire),
        (t3, .release)]).g.createdCount = 1
    ∧ (runS delay [(t0, .acquire), (t1, .release), (t2, .acquire),
        (t3, .release)]).g.cleanupCount = 0 := by
  have hst2 : runS delay [(t0, .acquire), (t1, .release)] =
      { g := { inst := some .connecting, hasChannel := true, users := 0,
               createdCount := 1, cleanupCount := 0 },
        timers := [t1 + delay] } := by
    simp [runS, stepS, fireDue, getPusherInstance, createNewInstance,
      releasePusherInstance, initialGlobal]
  have hnotdue : ¬ (t1 + delay ≤ t2) := by omega
  have hst3 : runS delay [(t0, .acquire), (t1, .release), (t2, .acquire)] =
      { g := { inst := some .connecting, hasChannel := true, users := 1,
               createdCount := 1, cleanupCount := 0 },
        timers := [t1 + delay] } := by
    show stepS delay (runS delay [(t0, .acquire), (t1, .release)]) (t2, .acquire) = _
    rw [hst2]
    simp [stepS, fireDue, hnotdue, getPusherInstance]
  refine ⟨?_, ?_, ?_⟩
  · rw [hst2]
    exact ⟨rfl, rfl⟩
  · intro T hT
    rw [hst2]
    simp [fireDue, hT, delayedCleanupFire, cleanupPusherInstance]
  · have hst4 : runS delay [(t0, .acquire), (t1, .release), (t2, .acquire),
        (t3, .release)] =
        stepS delay (runS delay [(t0, .acquire), (t1, .release), (t2, .acquire)])
          (t3, .release) := rfl
    rw [hst4, hst3]
    by_cases hdue3 : t1 + delay ≤ t3
    · constructor <;>
        simp [stepS, fireDue, hdue3, delayedCleanupFire, releasePusherInstance]
    · constructor <;>
        simp [stepS, fireDue, hdue3, delayedCleanupFire, releasePusherInstance]

/-- Witness for C2 at concrete times: grace delay 5000 ms, the two pairs
2000 ms apart. -/
theorem C2_grace_delay_teardown_witness :
    (0 ≤ 1000 ∧ 1000 ≤ 3000 ∧ 3000 ≤ 4000 ∧ 3000 < 1000 + 5000)
    ∧ (((runS 5000 [(0, .acquire), (1000, .release)]).g.inst.isSome = true
      ∧ (runS 5000 [(0, .acquire), (1000, .release)]).g.cleanupCount = 0)
    ∧ (∀ T, 1000 + 5000 ≤ T →
        (fireDue T (runS 5000 [(0, .acquire), (1000, .release)]).timers
          (runS 5000 [(0, .acquire), (1000, .release)]).g).1.inst = none
        ∧ (fireDue T (runS 5000 [(0, .acquire), (1000, .release)]).timers
            (runS 5000 [(0, .acquire), (1000, .release)]).g).1.cleanupCount = 1)
    ∧ (runS 5000 [(0, .acquire), (1000, .release), (3000, .acquire),
        (4000, .release)]).g.createdCount = 1
    ∧ (runS 5000 [(0, .acquire), (1000, .release), (3000, .acquire),
        (4000, .release)]).g.cleanupCount = 0) :=
  ⟨⟨by decide, by decide, by decide, by decide⟩,
    C2_grace_delay_teardown 5000 0 1000 3000 4000 (by decide) (by decide)
      (by decide) (by decide)⟩

/-- C3. Acquiring while the existing connection is `connecting` or
`connected` returns the existing handle with `wasReused = true`, bumps
the user counter, leaves instance/channel/creation count untouched, and
binds no event handlers; handlers are bound exactly when the acquisition
produced a fresh instance (`wasReused = false`). -/
theorem C3_reuse_no_rebind (g : PusherGlobal) (state : ConnState)
    (hinst : g.inst = some state) (hch : g.hasChannel = true)
    (hgood : state = .connected ∨ state = .connecting) :
    ((initializePusher true g).acquired = some true
      ∧ (initializePusher true g).g =
          { g with users := g.users + 1 }
      ∧ (initializePusher true g).didBind = false)
    ∧ (∀ cv : Bool, ∀ g' : PusherGlobal,
        ((initializePusher cv g').acquired = some false ↔
          (initializePusher cv g').didBind = true)) := by
  constructor
  · unfold initializePusher getPusherInstance
    rw [hinst, hch]
    simp only [Bool.not_true, Bool.false_eq_true, if_false]
    rw [if_pos hgood]
    exact ⟨rfl, rfl, rfl⟩
  · intro cv g'
    unfold initializePusher
    rcases hres : getPusherInstance cv g' with ⟨g2, opt⟩
    rcases opt with _ | b
    · simp
    · rcases b with _ | _ <;> simp

/-- Witness for C3: a connected singleton with one user is reused without
rebinding. -/
theorem C3_reuse_no_rebind_witness :
    let g : PusherGlobal := ⟨some .connected, true, 1, 1, 0⟩
    ((initializePusher true g).acquired = some true
      ∧ (initializePusher true g).g = { g with users := g.users + 1 }
      ∧ (initializePusher true g).didBind = false)
    ∧ (∀ cv : Bool, ∀ g' : PusherGlobal,
        ((initializePusher cv g').acquired = some false ↔
          (initializePusher cv g').didBind = true)) :=
  C3_reuse_no_rebind ⟨some .connected, true, 1, 1, 0⟩
    .connected rfl rfl (Or.inl rfl)
